import Mathlib

/-!
Verification of the WitMotion WT901C485 Modbus driver (Rust implementation).

The definitions below are a shallow embedding of the Rust source:
bytes are `Nat` (values < 256 where it matters), 16-bit registers are
`Nat` (unsigned view) or `Int` (signed two's-complement view), buffers
are `List Nat`, fallible operations return `Except WitError`.
-/

namespace Wit

/-! ## Error type (src/Rust/src/error.rs) -/

/-- Error type for WitMotion sensor operations, mirroring `WitError`. -/
inductive WitError where
  | invalidParameter : String → WitError
  | timeout : WitError
  | crcMismatch : WitError
  | sensorNotFound : WitError
  deriving DecidableEq, Repr

deriving instance DecidableEq for Except

/-! ## CRC engine (the `crc` crate's CRC_16_MODBUS)

Standard Modbus-RTU CRC-16: initial value 0xFFFF, reflected polynomial
0xA001, no final xor.  One bit step shifts right and conditionally
xors the polynomial; one byte step xors the byte in and runs 8 bit
steps.  All arithmetic is on `Nat`, staying below 2^16. -/

/-- One bit step of the reflected CRC-16/MODBUS computation. -/
def crcBit (c : Nat) : Nat :=
  if c % 2 = 1 then (c / 2) ^^^ 0xA001 else c / 2

/-- Absorb one byte into the CRC state (8 bit steps after xoring the byte in). -/
def crcByte (c b : Nat) : Nat :=
  crcBit (crcBit (crcBit (crcBit (crcBit (crcBit (crcBit (crcBit (c ^^^ b))))))))

/-- `MODBUS_CRC.checksum`: CRC-16/MODBUS over a byte span. -/
def crc16 (bytes : List Nat) : Nat :=
  bytes.foldl crcByte 0xFFFF

/-! ## Protocol state (src/Rust/src/modbus.rs, struct ModbusProtocol) -/

/-- Modbus protocol handler state: slave address, reassembly buffer,
and the starting register remembered from the last read request. -/
structure ModbusProtocol where
  slave_address : Nat
  data_buffer : List Nat
  read_register_index : Nat
  deriving DecidableEq, Repr

/-- `ModbusProtocol::new`. -/
def ModbusProtocol.new (slave_address : Nat) : ModbusProtocol :=
  { slave_address := slave_address, data_buffer := [], read_register_index := 0 }

/-- Big-endian byte pair of a 16-bit value (`u16::to_be_bytes`). -/
def u16beBytes (v : Nat) : List Nat :=
  [v / 256 % 256, v % 256]

/-- `ModbusProtocol::generate_read_request`: builds
`[addr, 0x03, start_hi, start_lo, count_hi, count_lo, crc_lo, crc_hi]`
and remembers the starting register. -/
def ModbusProtocol.generate_read_request (m : ModbusProtocol)
    (start_register num_registers : Nat) : ModbusProtocol × List Nat :=
  let frame := [m.slave_address, 0x03] ++ u16beBytes start_register ++ u16beBytes num_registers
  let crc := crc16 frame
  ({ m with read_register_index := start_register },
   frame ++ [crc % 256, crc / 256])

/-- `ModbusProtocol::generate_write_request`: builds
`[addr, 0x06, reg_hi, reg_lo, val_hi, val_lo, crc_lo, crc_hi]`. -/
def ModbusProtocol.generate_write_request (m : ModbusProtocol)
    (register value : Nat) : List Nat :=
  let frame := [m.slave_address, 0x06] ++ u16beBytes register ++ u16beBytes value
  let crc := crc16 frame
  frame ++ [crc % 256, crc / 256]

/-- Signed 16-bit value from a big-endian byte pair (`i16::from_be_bytes`). -/
def i16ofBytes (hi lo : Nat) : Int :=
  if 256 * hi + lo < 32768 then ((256 * hi + lo : Nat) : Int)
  else ((256 * hi + lo : Nat) : Int) - 65536

/-- `ModbusProtocol::parse_response`: validate the buffered frame
(function code, declared length, CRC) and decode the payload as signed
big-endian 16-bit register values, labelled with the remembered
starting register. -/
def ModbusProtocol.parse_response (m : ModbusProtocol) :
    Except WitError (Nat × List Int) :=
  if m.data_buffer.length < 5 then
    .error (.invalidParameter "Frame too short")
  else if m.data_buffer.getD 1 0 ≠ 0x03 then
    .error (.invalidParameter "Invalid function code")
  else if m.data_buffer.length ≠ m.data_buffer.getD 2 0 + 5 then
    .error (.invalidParameter "Invalid frame length")
  else if m.data_buffer.getD (m.data_buffer.getD 2 0 + 5 - 2) 0
        + 256 * m.data_buffer.getD (m.data_buffer.getD 2 0 + 5 - 1) 0
      ≠ crc16 (m.data_buffer.take (m.data_buffer.getD 2 0 + 5 - 2)) then
    .error .crcMismatch
  else
    .ok (m.read_register_index,
      (List.range (m.data_buffer.getD 2 0 / 2)).map fun i =>
        i16ofBytes (m.data_buffer.getD (3 + i * 2) 0) (m.data_buffer.getD (3 + i * 2 + 1) 0))

/-- `ModbusProtocol::process_byte`: append the byte to the buffer;
once at least 5 bytes and the declared frame length
(`buffer[2] + 5`) are present, parse and clear the buffer. -/
def ModbusProtocol.process_byte (m : ModbusProtocol) (byte : Nat) :
    ModbusProtocol × Except WitError (Option (Nat × List Int)) :=
  let m' := { m with data_buffer := m.data_buffer ++ [byte] }
  if m'.data_buffer.length < 5 then (m', .ok none)
  else if 3 ≤ m'.data_buffer.length then
    if m'.data_buffer.length < m'.data_buffer.getD 2 0 + 5 then (m', .ok none)
    else ({ m' with data_buffer := [] }, m'.parse_response.map some)
  else (m', .ok none)

/-- `ModbusProtocol::clear_buffer`. -/
def ModbusProtocol.clear_buffer (m : ModbusProtocol) : ModbusProtocol :=
  { m with data_buffer := [] }

/-- `ModbusProtocol::should_reset_buffer`: true when more than 256
bytes have accumulated. -/
def ModbusProtocol.should_reset_buffer (m : ModbusProtocol) : Bool :=
  256 < m.data_buffer.length

/-- Standalone `parse_response` (free function at the bottom of
modbus.rs): same validation as the streaming parse but the payload is
decoded as unsigned 16-bit values and no starting register is attached. -/
def parse_response (frame : List Nat) : Except WitError (List Nat) :=
  if frame.length < 5 then
    .error (.invalidParameter "Frame too short")
  else if frame.getD 1 0 ≠ 0x03 then
    .error (.invalidParameter "Invalid function code")
  else if frame.length ≠ frame.getD 2 0 + 5 then
    .error (.invalidParameter "Invalid frame length")
  else if frame.getD (frame.getD 2 0 + 5 - 2) 0
        + 256 * frame.getD (frame.getD 2 0 + 5 - 1) 0
      ≠ crc16 (frame.take (frame.getD 2 0 + 5 - 2)) then
    .error .crcMismatch
  else
    .ok ((List.range (frame.getD 2 0 / 2)).map fun i =>
      256 * frame.getD (3 + i * 2) 0 + frame.getD (3 + i * 2 + 1) 0)

/-! ## Byte-wise feeding of a stream into the reassembler -/

/-- Feed a list of bytes one at a time through `process_byte`,
collecting the per-byte results. -/
def feedBytes (m : ModbusProtocol) (bytes : List Nat) :
    ModbusProtocol × List (Except WitError (Option (Nat × List Int))) :=
  match bytes with
  | [] => (m, [])
  | b :: rest =>
    let p := m.process_byte b
    let q := feedBytes p.1 rest
    (q.1, p.2 :: q.2)

/-! ## Well-formed response frames (the wire format of §3 of the spec)

A read response is `[addr, 0x03, 2*count, payload..., crc_lo, crc_hi]`
with the payload holding the registers as big-endian 16-bit values and
the CRC computed over all preceding bytes. -/

/-- Two's-complement 16-bit image of a signed register value. -/
def toNat16 (v : Int) : Nat := (v % 65536).toNat

/-- Big-endian payload encoding of a register list. -/
def encodeRegisters : List Int → List Nat
  | [] => []
  | v :: vs => toNat16 v / 256 :: toNat16 v % 256 :: encodeRegisters vs

/-- Body of a read response frame: address, function code 0x03, payload
length byte, big-endian register payload. -/
def respBody (addr : Nat) (values : List Int) : List Nat :=
  addr :: 0x03 :: 2 * values.length :: encodeRegisters values

/-- A well-formed read response frame carrying the given register
values: the body followed by its CRC, little-endian. -/
def responseFrame (addr : Nat) (values : List Int) : List Nat :=
  respBody addr values
    ++ [crc16 (respBody addr values) % 256, crc16 (respBody addr values) / 256]

end Wit

namespace Wit

/-! ## Basic facts about the embedding -/

theorem encodeRegisters_length (vs : List Int) :
    (encodeRegisters vs).length = 2 * vs.length := by
  induction vs with
  | nil => simp [encodeRegisters]
  | cons v vs ih => simp [encodeRegisters, ih]; ring

theorem toNat16_lt (v : Int) : toNat16 v < 65536 := by
  unfold toNat16; omega

theorem encodeRegisters_mem_lt (vs : List Int) : ∀ x ∈ encodeRegisters vs, x < 256 := by
  induction vs with
  | nil => simp [encodeRegisters]
  | cons v vs ih =>
    intro x hx
    simp only [encodeRegisters, List.mem_cons] at hx
    rcases hx with h | h | h
    · subst h; have := toNat16_lt v; omega
    · subst h; omega
    · exact ih x h

theorem crcBit_lt (c : Nat) (h : c < 65536) : crcBit c < 65536 := by
  unfold crcBit
  split
  · have hx : c / 2 ^^^ 0xA001 < 2 ^ 16 :=
      Nat.xor_lt_two_pow (by omega) (by norm_num)
    norm_num at hx
    exact hx
  · omega

theorem crcByte_lt (c b : Nat) (hc : c < 65536) (hb : b < 65536) :
    crcByte c b < 65536 := by
  have hx : c ^^^ b < 2 ^ 16 := Nat.xor_lt_two_pow (by norm_num at hc ⊢; omega) (by norm_num at hb ⊢; omega)
  norm_num at hx
  unfold crcByte
  exact crcBit_lt _ (crcBit_lt _ (crcBit_lt _ (crcBit_lt _ (crcBit_lt _
    (crcBit_lt _ (crcBit_lt _ (crcBit_lt _ hx)))))))

theorem crc16_foldl_lt (l : List Nat) (acc : Nat) (hacc : acc < 65536)
    (h : ∀ x ∈ l, x < 65536) : l.foldl crcByte acc < 65536 := by
  induction l generalizing acc with
  | nil => simpa using hacc
  | cons b bs ih =>
    simp only [List.foldl_cons]
    exact ih _ (crcByte_lt _ _ hacc (h b (by simp))) (fun x hx => h x (by simp [hx]))

theorem crc16_lt (l : List Nat) (h : ∀ x ∈ l, x < 65536) : crc16 l < 65536 :=
  crc16_foldl_lt l 0xFFFF (by norm_num) h

theorem getD_lt_of_forall {l : List Nat} (h : ∀ x ∈ l, x < 256) (i : Nat) :
    l.getD i 0 < 256 := by
  rcases Nat.lt_or_ge i l.length with hi | hi
  · rw [List.getD_eq_getElem l 0 hi]; exact h _ (List.getElem_mem hi)
  · rw [List.getD_eq_getElem?_getD, List.getElem?_eq_none (by simpa using hi)]
    norm_num

theorem getD_take {α : Type} (l : List α) (d : α) (i n : Nat) (h : i < n) :
    (l.take n).getD i d = l.getD i d := by
  rw [List.getD_eq_getElem?_getD, List.getD_eq_getElem?_getD, List.getElem?_take,
    if_pos h]

theorem getD_append_left {α : Type} (l₁ l₂ : List α) (d : α) (i : Nat)
    (h : i < l₁.length) : (l₁ ++ l₂).getD i d = l₁.getD i d := by
  rw [List.getD_eq_getElem?_getD, List.getD_eq_getElem?_getD,
    List.getElem?_append_left h]

theorem getD_append_right {α : Type} (l₁ l₂ : List α) (d : α) (i : Nat)
    (h : l₁.length ≤ i) : (l₁ ++ l₂).getD i d = l₂.getD (i - l₁.length) d := by
  rw [List.getD_eq_getElem?_getD, List.getD_eq_getElem?_getD,
    List.getElem?_append_right h]

theorem i16ofBytes_toNat16 (v : Int) (h1 : -32768 ≤ v) (h2 : v < 32768) :
    i16ofBytes (toNat16 v / 256) (toNat16 v % 256) = v := by
  unfold i16ofBytes toNat16
  have ht : 256 * ((v % 65536).toNat / 256) + (v % 65536).toNat % 256
      = (v % 65536).toNat := by omega
  rw [ht]
  split <;> omega

theorem toNat16_i16ofBytes (hi lo : Nat) (hh : hi < 256) (hl : lo < 256) :
    toNat16 (i16ofBytes hi lo) = 256 * hi + lo := by
  unfold toNat16 i16ofBytes
  split <;> omega

theorem encodeRegisters_getD (vs : List Int) (i : Nat) (h : i < vs.length) :
    (encodeRegisters vs).getD (i * 2) 0 = toNat16 (vs.getD i 0) / 256 ∧
    (encodeRegisters vs).getD (i * 2 + 1) 0 = toNat16 (vs.getD i 0) % 256 := by
  induction vs generalizing i with
  | nil => simp at h
  | cons v vs ih =>
    cases i with
    | zero => simp [encodeRegisters]
    | succ j =>
      have hj : j < vs.length := by simpa using h
      have e1 : (j + 1) * 2 = j * 2 + 1 + 1 := by ring
      have e2 : (j + 1) * 2 + 1 = j * 2 + 1 + 1 + 1 := by ring
      constructor
      · rw [e1]; simpa [encodeRegisters] using (ih j hj).1
      · rw [e2]; simpa [encodeRegisters] using (ih j hj).2

theorem respBody_length (addr : Nat) (values : List Int) :
    (respBody addr values).length = 2 * values.length + 3 := by
  simp [respBody, encodeRegisters_length]

theorem responseFrame_length (addr : Nat) (values : List Int) :
    (responseFrame addr values).length = 2 * values.length + 5 := by
  simp [responseFrame, respBody, encodeRegisters_length]

theorem responseFrame_getD_one (addr : Nat) (values : List Int) :
    (responseFrame addr values).getD 1 0 = 3 := by
  simp [responseFrame, respBody]

theorem responseFrame_getD_two (addr : Nat) (values : List Int) :
    (responseFrame addr values).getD 2 0 = 2 * values.length := by
  simp [responseFrame, respBody]

theorem responseFrame_take (addr : Nat) (values : List Int) :
    (responseFrame addr values).take (2 * values.length + 3) = respBody addr values := by
  have h := respBody_length addr values
  conv_lhs => rw [responseFrame, ← h]
  exact List.take_left _ _

end Wit

namespace Wit

/-! ## Stepping lemmas for the reassembler -/

theorem process_byte_wait (m : ModbusProtocol) (b : Nat)
    (h : (m.data_buffer ++ [b]).length < 5 ∨
      (m.data_buffer ++ [b]).length < (m.data_buffer ++ [b]).getD 2 0 + 5) :
    m.process_byte b = ({ m with data_buffer := m.data_buffer ++ [b] }, .ok none) := by
  unfold ModbusProtocol.process_byte
  dsimp only
  by_cases h5 : (m.data_buffer ++ [b]).length < 5
  · rw [if_pos h5]
  · rw [if_neg h5, if_pos (by simp only [List.length_append] at h5 ⊢; omega),
      if_pos (by tauto)]

theorem process_byte_complete (m : ModbusProtocol) (b : Nat)
    (h5 : ¬ (m.data_buffer ++ [b]).length < 5)
    (hlen : ¬ (m.data_buffer ++ [b]).length < (m.data_buffer ++ [b]).getD 2 0 + 5) :
    m.process_byte b = ({ m with data_buffer := [] },
      (ModbusProtocol.parse_response { m with data_buffer := m.data_buffer ++ [b] }).map some) := by
  unfold ModbusProtocol.process_byte
  dsimp only
  rw [if_neg h5, if_pos (by simp only [List.length_append] at h5 ⊢; omega), if_neg hlen]

theorem process_byte_idx (m : ModbusProtocol) (b : Nat) :
    (m.process_byte b).1.read_register_index = m.read_register_index := by
  unfold ModbusProtocol.process_byte
  dsimp only
  repeat' split
  all_goals rfl

theorem process_byte_addr (m : ModbusProtocol) (b : Nat) :
    (m.process_byte b).1.slave_address = m.slave_address := by
  unfold ModbusProtocol.process_byte
  dsimp only
  repeat' split
  all_goals rfl

theorem feedBytes_append (m : ModbusProtocol) (xs ys : List Nat) :
    feedBytes m (xs ++ ys) =
      ((feedBytes (feedBytes m xs).1 ys).1,
        (feedBytes m xs).2 ++ (feedBytes (feedBytes m xs).1 ys).2) := by
  induction xs generalizing m with
  | nil => simp [feedBytes]
  | cons x xs ih => simp [feedBytes, ih]

theorem feedBytes_length (m : ModbusProtocol) (bs : List Nat) :
    (feedBytes m bs).2.length = bs.length := by
  induction bs generalizing m with
  | nil => simp [feedBytes]
  | cons b bs ih => simp [feedBytes, ih]

theorem feedBytes_idx (m : ModbusProtocol) (bs : List Nat) :
    (feedBytes m bs).1.read_register_index = m.read_register_index := by
  induction bs generalizing m with
  | nil => simp [feedBytes]
  | cons b bs ih => rw [feedBytes, ih, process_byte_idx]

/-! ## Parsing a well-formed response frame succeeds -/

theorem parse_response_frame (m : ModbusProtocol) (addr : Nat) (values : List Int)
    (hbuf : m.data_buffer = responseFrame addr values)
    (hvals : ∀ v ∈ values, -32768 ≤ v ∧ v < 32768) :
    m.parse_response = .ok (m.read_register_index, values) := by
  have hlen := responseFrame_length addr values
  have h2 := responseFrame_getD_two addr values
  unfold ModbusProtocol.parse_response
  rw [hbuf, hlen, h2, responseFrame_getD_one]
  rw [if_neg (by omega), if_neg (by simp), if_neg (by omega)]
  have hcrcpos : 2 * values.length + 5 - 2 = 2 * values.length + 3 := by omega
  rw [hcrcpos]
  have hc0 : (responseFrame addr values).getD (2 * values.length + 3) 0
      = crc16 (respBody addr values) % 256 := by
    rw [responseFrame, getD_append_right _ _ _ _ (by rw [respBody_length])]
    rw [respBody_length]
    simp
  have hc1 : (responseFrame addr values).getD (2 * values.length + 5 - 1) 0
      = crc16 (respBody addr values) / 256 := by
    rw [responseFrame, getD_append_right _ _ _ _ (by rw [respBody_length]; omega)]
    rw [respBody_length]
    have : 2 * values.length + 5 - 1 - (2 * values.length + 3) = 1 := by omega
    rw [this]
    simp
  rw [hc0, hc1, responseFrame_take, if_neg (by rw [Nat.mod_add_div]; omega)]
  have hidx : ∀ j, j < 2 * values.length →
      (responseFrame addr values).getD (3 + j) 0 = (encodeRegisters values).getD j 0 := by
    intro j hj
    rw [responseFrame, getD_append_left _ _ _ _ (by rw [respBody_length]; omega)]
    rw [show respBody addr values
        = [addr, 3, 2 * values.length] ++ encodeRegisters values from rfl]
    rw [getD_append_right _ _ _ _ (by simp)]
    simp
  have hdec : (List.range (2 * values.length / 2)).map (fun i =>
      i16ofBytes ((responseFrame addr values).getD (3 + i * 2) 0)
        ((responseFrame addr values).getD (3 + i * 2 + 1) 0)) = values := by
    have hl2 : 2 * values.length / 2 = values.length := by omega
    rw [hl2]
    apply List.ext_getElem (by simp)
    intro n h1 hn
    simp only [List.getElem_map, List.getElem_range]
    rw [show 3 + n * 2 + 1 = 3 + (n * 2 + 1) from by omega]
    rw [hidx (n * 2) (by omega), hidx (n * 2 + 1) (by omega)]
    rw [(encodeRegisters_getD values n (by simpa using hn)).1,
      (encodeRegisters_getD values n (by simpa using hn)).2]
    have hmem : values.getD n 0 ∈ values := by
      rw [List.getD_eq_getElem _ _ (by simpa using hn)]
      exact List.getElem_mem _
    rw [i16ofBytes_toNat16 _ (hvals _ hmem).1 (hvals _ hmem).2]
    rw [List.getD_eq_getElem _ _ (by simpa using hn)]
  rw [hdec]

end Wit

namespace Wit

/-! ## Feeding a frame byte-by-byte from an empty buffer -/

theorem feed_take (m : ModbusProtocol) (F : List Nat)
    (hbuf : m.data_buffer = [])
    (hL : F.length = F.getD 2 0 + 5) :
    ∀ k, k < F.length →
      (feedBytes m (F.take k)).1 = { m with data_buffer := F.take k } ∧
      ∀ r ∈ (feedBytes m (F.take k)).2, r = Except.ok none := by
  intro k
  induction k with
  | zero =>
    intro _
    refine ⟨?_, by simp [feedBytes]⟩
    simp only [List.take_zero, feedBytes, ← hbuf]
  | succ k ih =>
    intro hk
    have hk' : k < F.length := by omega
    obtain ⟨hs, hr⟩ := ih hk'
    have hget : F[k]? = some (F.getD k 0) := by
      rw [List.getElem?_eq_getElem hk', List.getD_eq_getElem _ _ hk']
    have htake : F.take (k + 1) = F.take k ++ [F.getD k 0] := by
      rw [List.take_succ, hget]; rfl
    have hklen : (F.take k).length = k := by
      simp [List.length_take]; omega
    have hstep : ({ m with data_buffer := F.take k } :
        ModbusProtocol).process_byte (F.getD k 0) =
        ({ m with data_buffer := F.take (k + 1) }, .ok none) := by
      have harg : (F.take k) ++ [F.getD k 0] = F.take (k + 1) := htake.symm
      rw [process_byte_wait]
      · rw [htake]
      · by_cases h5 : k + 1 < 5
        · left
          simp only [List.length_append, hklen, List.length_cons, List.length_nil]
          omega
        · right
          rw [harg]
          have hT : (F.take (k + 1)).length = k + 1 := by
            simp [List.length_take]; omega
          rw [hT, getD_take _ _ _ _ (by omega)]
          omega
    rw [htake, feedBytes_append, hs]
    constructor
    · show (feedBytes _ [F.getD k 0]).1 = _
      simp only [feedBytes, hstep]
      rw [htake]
    · intro r hr'
      rw [List.mem_append] at hr'
      rcases hr' with h | h
      · exact hr r h
      · simp only [feedBytes, hstep] at h
        simpa using h

theorem feed_frame (m : ModbusProtocol) (addr : Nat) (values : List Int)
    (hbuf : m.data_buffer = [])
    (hvals : ∀ v ∈ values, -32768 ≤ v ∧ v < 32768) :
    (feedBytes m (responseFrame addr values)).1 = { m with data_buffer := [] } ∧
    (∀ i, i + 1 < (responseFrame addr values).length →
      (feedBytes m (responseFrame addr values)).2.getD i (.ok none) = .ok none) ∧
    (feedBytes m (responseFrame addr values)).2.getD
        ((responseFrame addr values).length - 1) (.ok none)
      = .ok (some (m.read_register_index, values)) := by
  have hflen := responseFrame_length addr values
  have hL : (responseFrame addr values).length
      = (responseFrame addr values).getD 2 0 + 5 := by
    rw [hflen, responseFrame_getD_two]
  set F := responseFrame addr values with hF
  set L := F.length with hLdef
  have hL5 : 5 ≤ L := by omega
  obtain ⟨hs, hr⟩ := feed_take m F hbuf hL (L - 1) (by omega)
  have hlt : L - 1 < F.length := by omega
  have hget : F[L - 1]? = some (F.getD (L - 1) 0) := by
    rw [List.getElem?_eq_getElem hlt, List.getD_eq_getElem _ _ hlt]
  have hsplit : F = F.take (L - 1) ++ [F.getD (L - 1) 0] := by
    conv_lhs => rw [← List.take_length (l := F), ← hLdef,
      show L = (L - 1) + 1 from by omega]
    rw [List.take_succ, hget]
    rfl
  have hklen : (F.take (L - 1)).length = L - 1 := by
    rw [List.length_take]; omega
  have harg : F.take (L - 1) ++ [F.getD (L - 1) 0] = F := hsplit.symm
  have hparse : ModbusProtocol.parse_response { m with data_buffer := F } =
      .ok (m.read_register_index, values) :=
    parse_response_frame _ addr values rfl hvals
  have hstep : ({ m with data_buffer := F.take (L - 1) } :
      ModbusProtocol).process_byte (F.getD (L - 1) 0) =
      ({ m with data_buffer := [] }, .ok (some (m.read_register_index, values))) := by
    rw [process_byte_complete]
    · rw [harg, hparse]; rfl
    · rw [harg]; omega
    · rw [harg, ← hL]; omega
  have hfeed : feedBytes m F =
      ({ m with data_buffer := [] },
        (feedBytes m (F.take (L - 1))).2 ++ [.ok (some (m.read_register_index, values))]) := by
    conv_lhs => rw [hsplit]
    rw [feedBytes_append, hs]
    simp only [feedBytes, hstep]
  have hrlen : (feedBytes m (F.take (L - 1))).2.length = L - 1 := by
    rw [feedBytes_length, hklen]
  refine ⟨by rw [hfeed], ?_, ?_⟩
  · intro i hi
    rw [hfeed]
    have hi' : i < L - 1 := by omega
    rw [getD_append_left _ _ _ _ (by omega)]
    rw [List.getD_eq_getElem _ _ (by omega)]
    exact hr _ (List.getElem_mem _)
  · rw [hfeed]
    rw [getD_append_right _ _ _ _ (by omega), hrlen]
    simp

end Wit

namespace Wit

/-- C1: after `generate_read_request(start_register, count)` has been issued,
feeding the corresponding well-formed response frame
`[addr, 0x03, 2*count, big-endian values..., crc_lo, crc_hi]` to
`process_byte` one byte at a time returns `None` on every byte before the
last and `Some((start_register, values))` on the last byte, recovering
exactly the encoded register values in address order. -/
theorem read_request_roundtrip (addr start count : Nat) (values : List Int)
    (haddr : addr < 256) (hcount : values.length = count) (hfits : 2 * count ≤ 255)
    (hvals : ∀ v ∈ values, -32768 ≤ v ∧ v < 32768) :
    (feedBytes (((ModbusProtocol.new addr).generate_read_request start count).1)
        (responseFrame addr values)).2.length = (responseFrame addr values).length ∧
    (∀ i, i + 1 < (responseFrame addr values).length →
      (feedBytes (((ModbusProtocol.new addr).generate_read_request start count).1)
        (responseFrame addr values)).2.getD i (.ok none) = .ok none) ∧
    (feedBytes (((ModbusProtocol.new addr).generate_read_request start count).1)
        (responseFrame addr values)).2.getD
        ((responseFrame addr values).length - 1) (.ok none)
      = .ok (some (start, values)) := by
  have h := feed_frame (((ModbusProtocol.new addr).generate_read_request start count).1)
    addr values rfl hvals
  refine ⟨feedBytes_length _ _, h.2.1, ?_⟩
  rw [h.2.2]
  rfl

/-- Witness for C1 at a concrete instance: slave 0x50, start register 0x34,
one register with value 1. -/
theorem read_request_roundtrip_witness :
    (feedBytes (((ModbusProtocol.new 0x50).generate_read_request 0x34 1).1)
        (responseFrame 0x50 [1])).2.getD
        ((responseFrame 0x50 [1]).length - 1) (.ok none)
      = .ok (some (0x34, [1])) :=
  (read_request_roundtrip 0x50 0x34 1 [1] (by decide) rfl (by decide) (by decide)).2.2

end Wit

namespace Wit

/-- C2: when the reassembly buffer reaches the declared frame length
(`buffer[2] + 5`, with at least 5 bytes present), `process_byte` attempts
a parse which fails with the invalid-function error iff byte 1 is not
0x03 (checked before anything else), fails with the checksum-mismatch
error iff the function code is 0x03 and the recomputed CRC-16 differs
from the little-endian u16 in the trailing two bytes, and otherwise
succeeds, decoding `(expected_length - 5) / 2` big-endian 16-bit values
from the payload. -/
theorem parse_attempt_outcomes (m : ModbusProtocol) (b : Nat)
    (h5 : 5 ≤ (m.data_buffer ++ [b]).length)
    (hreach : (m.data_buffer ++ [b]).length = (m.data_buffer ++ [b]).getD 2 0 + 5) :
    ((m.process_byte b).2 = .error (.invalidParameter "Invalid function code")
      ↔ (m.data_buffer ++ [b]).getD 1 0 ≠ 0x03) ∧
    ((m.process_byte b).2 = .error .crcMismatch
      ↔ ((m.data_buffer ++ [b]).getD 1 0 = 0x03 ∧
        (m.data_buffer ++ [b]).getD ((m.data_buffer ++ [b]).length - 2) 0
          + 256 * (m.data_buffer ++ [b]).getD ((m.data_buffer ++ [b]).length - 1) 0
          ≠ crc16 ((m.data_buffer ++ [b]).take ((m.data_buffer ++ [b]).length - 2)))) ∧
    ((m.data_buffer ++ [b]).getD 1 0 = 0x03 →
      (m.data_buffer ++ [b]).getD ((m.data_buffer ++ [b]).length - 2) 0
        + 256 * (m.data_buffer ++ [b]).getD ((m.data_buffer ++ [b]).length - 1) 0
        = crc16 ((m.data_buffer ++ [b]).take ((m.data_buffer ++ [b]).length - 2)) →
      (m.process_byte b).2 = .ok (some (m.read_register_index,
        (List.range (((m.data_buffer ++ [b]).length - 5) / 2)).map fun i =>
          i16ofBytes ((m.data_buffer ++ [b]).getD (3 + i * 2) 0)
            ((m.data_buffer ++ [b]).getD (3 + i * 2 + 1) 0)))) := by
  have hpb : (m.process_byte b).2 =
      (ModbusProtocol.parse_response
        { m with data_buffer := m.data_buffer ++ [b] }).map some := by
    rw [process_byte_complete m b (by omega) (by omega)]
  have hd2 : (m.data_buffer ++ [b]).getD 2 0 + 5 - 2 = (m.data_buffer ++ [b]).length - 2 := by
    omega
  have hd1 : (m.data_buffer ++ [b]).getD 2 0 + 5 - 1 = (m.data_buffer ++ [b]).length - 1 := by
    omega
  have hd5 : (m.data_buffer ++ [b]).getD 2 0 / 2 = ((m.data_buffer ++ [b]).length - 5) / 2 := by
    omega
  rw [hpb]
  unfold ModbusProtocol.parse_response
  dsimp only
  rw [if_neg (by omega), hd2, hd1, hd5]
  by_cases hfc : (m.data_buffer ++ [b]).getD 1 0 = 0x03
  · rw [if_neg (not_not_intro hfc), if_neg (by omega)]
    by_cases hcrc : (m.data_buffer ++ [b]).getD ((m.data_buffer ++ [b]).length - 2) 0
        + 256 * (m.data_buffer ++ [b]).getD ((m.data_buffer ++ [b]).length - 1) 0
        = crc16 ((m.data_buffer ++ [b]).take ((m.data_buffer ++ [b]).length - 2))
    · rw [if_neg (not_not_intro hcrc)]
      exact ⟨iff_of_false (fun h => nomatch h) (fun h => h hfc),
        iff_of_false (fun h => nomatch h) (fun h => h.2 hcrc),
        fun _ _ => rfl⟩
    · rw [if_pos hcrc]
      exact ⟨iff_of_false (by simp [Except.map]) (not_not_intro hfc),
        iff_of_true (by simp [Except.map]) ⟨hfc, hcrc⟩,
        fun _ hc => absurd hc hcrc⟩
  · rw [if_pos hfc]
    exact ⟨iff_of_true (by simp [Except.map]) hfc,
      iff_of_false (by simp [Except.map]) (fun h => hfc h.1),
      fun hc _ => absurd hc hfc⟩

/-- Witness for C2 at a concrete instance: a full well-formed frame for
one register with value 1 completes and decodes successfully. -/
theorem parse_attempt_outcomes_witness :
    (ModbusProtocol.process_byte
        ⟨0x50, (responseFrame 0x50 [1]).take 6, 0x34⟩
        ((responseFrame 0x50 [1]).getD 6 0)).2
      = .ok (some (0x34, [1])) := by
  have h := (parse_attempt_outcomes ⟨0x50, (responseFrame 0x50 [1]).take 6, 0x34⟩
      ((responseFrame 0x50 [1]).getD 6 0) (by decide) (by decide)).2.2
      (by decide) (by decide)
  exact h.trans (by decide)

end Wit

namespace Wit

/-- C3 counterexample: a single leftover garbled byte (0x00) before a
fresh complete valid frame (slave 0x50, one register with value 1,
issued after `generate_read_request(0x34, 1)`) shifts the framing, so
no byte of the stream ever yields the decoded second frame. -/
theorem resync_counterexample :
    Except.ok (some (0x34, [1])) ∉
      (feedBytes (((ModbusProtocol.new 0x50).generate_read_request 0x34 1).1)
        (0 :: responseFrame 0x50 [1])).2 := by
  decide

/-- C3 amended: a malformed byte sequence does not poison subsequent
reads provided the reassembly buffer is empty again once it has been
consumed (in particular when its final byte triggered a parse attempt,
which always clears the buffer); a fresh complete valid frame fed
afterwards decodes successfully on its last byte. -/
theorem resync_after_drained (m : ModbusProtocol) (g : List Nat)
    (addr : Nat) (values : List Int)
    (hbuf : m.data_buffer = [])
    (hdrain : (feedBytes m g).1.data_buffer = [])
    (hvals : ∀ v ∈ values, -32768 ≤ v ∧ v < 32768) :
    (feedBytes m (g ++ responseFrame addr values)).2.getD
        (g.length + (responseFrame addr values).length - 1) (.ok none)
      = .ok (some (m.read_register_index, values)) := by
  have hflen := responseFrame_length addr values
  rw [feedBytes_append]
  have h := feed_frame (feedBytes m g).1 addr values hdrain hvals
  rw [getD_append_right _ _ _ _ (by rw [feedBytes_length]; omega)]
  rw [feedBytes_length]
  have hidx : g.length + (responseFrame addr values).length - 1 - g.length
      = (responseFrame addr values).length - 1 := by omega
  rw [hidx, h.2.2, feedBytes_idx]

/-- Witness for the amended C3: a garbled 5-byte frame (parse attempt
fails, buffer cleared) followed by a valid frame still decodes. -/
theorem resync_after_drained_witness :
    (feedBytes (((ModbusProtocol.new 0x50).generate_read_request 0x34 1).1)
        ([9, 9, 0, 0, 9] ++ responseFrame 0x50 [1])).2.getD
        (([9, 9, 0, 0, 9] : List Nat).length + (responseFrame 0x50 [1]).length - 1)
        (.ok none)
      = .ok (some (0x34, [1])) :=
  resync_after_drained (((ModbusProtocol.new 0x50).generate_read_request 0x34 1).1)
    [9, 9, 0, 0, 9] 0x50 [1] rfl (by decide) (by decide)

end Wit

namespace Wit

/-! ## Register addresses (src/Rust/src/registers.rs) -/

def AX : Nat := 0x34
def AY : Nat := 0x35
def AZ : Nat := 0x36
def GX : Nat := 0x37
def GY : Nat := 0x38
def GZ : Nat := 0x39
def HX : Nat := 0x3A
def HY : Nat := 0x3B
def HZ : Nat := 0x3C
def ROLL : Nat := 0x3D
def PITCH : Nat := 0x3E
def YAW : Nat := 0x3F
def TEMP : Nat := 0x40

/-! ## Update flags and sensor data (src/Rust/src/sensor.rs)

The Rust `DataUpdateFlags` bitflags are modelled as a `Nat` bitmask.
Scaled measurement fields are modelled as exact rationals; the Rust
f32 scalings by powers of two (`/ 32768.0 * 16.0` etc.) are exact in
f32, the temperature `/ 100.0` is subject to f32 rounding which is
not modelled (no claim concerns its numeric value). -/

namespace DataUpdateFlags

def ACC : Nat := 0x01
def GYRO : Nat := 0x02
def ANGLE : Nat := 0x04
def MAG : Nat := 0x08
def READ : Nat := 0x80

end DataUpdateFlags

/-- Sensor data: scaled measurements plus the update-flag bitmask. -/
structure SensorData where
  accelerometer : List ℚ
  gyroscope : List ℚ
  angles : List ℚ
  magnetometer : List Int
  temperature : ℚ
  update_flags : Nat
  deriving DecidableEq, Repr

/-- `SensorData::new` / `Default`: all zeroes, empty flag set. -/
def SensorData.new : SensorData :=
  { accelerometer := [0, 0, 0], gyroscope := [0, 0, 0], angles := [0, 0, 0],
    magnetometer := [0, 0, 0], temperature := 0, update_flags := 0 }

/-- The per-register loop of `WitSensor::extract_sensor_data`: walks the
values with their register address `start_register + i`, writing the
matching typed field and accumulating update flags (set on the last
address of each block; the TEMP arm sets no flag; any other address
sets the generic READ flag). -/
def extractLoop : SensorData → Nat → Nat → List Int → SensorData × Nat
  | data, flags, _, [] => (data, flags)
  | data, flags, reg, value :: rest =>
    let step : SensorData × Nat :=
      if AX ≤ reg ∧ reg ≤ AZ then
        ({ data with accelerometer :=
            data.accelerometer.set (reg - AX) ((value : ℚ) / 32768 * 16) },
         if reg = AZ then flags ||| DataUpdateFlags.ACC else flags)
      else if GX ≤ reg ∧ reg ≤ GZ then
        ({ data with gyroscope :=
            data.gyroscope.set (reg - GX) ((value : ℚ) / 32768 * 2000) },
         if reg = GZ then flags ||| DataUpdateFlags.GYRO else flags)
      else if HX ≤ reg ∧ reg ≤ HZ then
        ({ data with magnetometer := data.magnetometer.set (reg - HX) value },
         if reg = HZ then flags ||| DataUpdateFlags.MAG else flags)
      else if ROLL ≤ reg ∧ reg ≤ YAW then
        ({ data with angles :=
            data.angles.set (reg - ROLL) ((value : ℚ) / 32768 * 180) },
         if reg = YAW then flags ||| DataUpdateFlags.ANGLE else flags)
      else if reg = TEMP then
        ({ data with temperature := (value : ℚ) / 100 }, flags)
      else
        (data, flags ||| DataUpdateFlags.READ)
    extractLoop step.1 step.2 (reg + 1) rest

/-- `WitSensor::extract_sensor_data`: run the loop on a fresh
`SensorData` with empty flags, then store the accumulated flags. -/
def WitSensor.extract_sensor_data (start_register : Nat) (values : List Int) :
    SensorData :=
  let p := extractLoop SensorData.new 0 start_register values
  { p.1 with update_flags := p.2 }

/-! ## Sensor session state (src/Rust/src/sensor.rs, struct WitSensor)

The serial port itself is the external transport (modelled separately
as `WitSerial` below); incoming bytes are passed in explicitly.  The
register bank `HashMap<u16, i16>` is modelled as a partial map. -/

structure WitSensor where
  modbus : ModbusProtocol
  registers : Nat → Option Int
  current_baud : Nat

/-- `HashMap::insert`. -/
def insertReg (regs : Nat → Option Int) (k : Nat) (v : Int) : Nat → Option Int :=
  fun r => if r = k then some v else regs r

/-- The register-bank update of `process_incoming_data`:
`registers.insert(start_reg + i, values[i])` for each i in order. -/
def updateRegisters (regs : Nat → Option Int) (start : Nat) :
    List Int → (Nat → Option Int)
  | [] => regs
  | v :: vs => updateRegisters (insertReg regs start v) (start + 1) vs

/-- One iteration of the read loop of `WitSensor::process_incoming_data`
on one received byte: run `process_byte` (an error propagates via `?`
immediately), on a decoded frame update the register bank and build the
`SensorData`, then apply the `should_reset_buffer`/`clear_buffer`
safety valve. -/
def WitSensor.process_one_byte (s : WitSensor) (byte : Nat) :
    WitSensor × Except WitError (Option SensorData) :=
  let p := s.modbus.process_byte byte
  match p.2 with
  | .error e => ({ s with modbus := p.1 }, .error e)
  | .ok none =>
    let s' : WitSensor := { s with modbus := p.1 }
    (if s'.modbus.should_reset_buffer then
      { s' with modbus := s'.modbus.clear_buffer } else s',
     .ok none)
  | .ok (some (start_reg, values)) =>
    let s' : WitSensor :=
      { s with
        modbus := p.1
        registers := updateRegisters s.registers start_reg values }
    (if s'.modbus.should_reset_buffer then
      { s' with modbus := s'.modbus.clear_buffer } else s',
     .ok (some (WitSensor.extract_sensor_data start_reg values)))

/-- The full read loop of `WitSensor::process_incoming_data` over the
bytes available on the serial port, remembering the most recent decode. -/
def processIncomingLoop (s : WitSensor) (acc : Option SensorData) :
    List Nat → WitSensor × Except WitError (Option SensorData)
  | [] => (s, .ok acc)
  | b :: rest =>
    let p := s.process_one_byte b
    match p.2 with
    | .error e => (p.1, .error e)
    | .ok none => processIncomingLoop p.1 acc rest
    | .ok (some d) => processIncomingLoop p.1 (some d) rest

/-- `WitSensor::process_incoming_data`, over the available bytes. -/
def WitSensor.process_incoming_data (s : WitSensor) (bytes : List Nat) :
    WitSensor × Except WitError (Option SensorData) :=
  processIncomingLoop s none bytes

/-- `WitSensor::read_sensor_data`: after the read request and settle
delay (external I/O), process whatever bytes arrived; with no complete
frame it returns an all-default `SensorData::new()`. -/
def WitSensor.read_sensor_data (s : WitSensor) (bytes : List Nat) :
    WitSensor × Except WitError SensorData :=
  let p := s.process_incoming_data bytes
  match p.2 with
  | .error e => (p.1, .error e)
  | .ok (some d) => (p.1, .ok d)
  | .ok none => (p.1, .ok SensorData.new)

end Wit

namespace Wit

/-! ## Buffer and register-bank lemmas -/

theorem process_byte_buffer_cases (m : ModbusProtocol) (b : Nat) :
    (m.process_byte b).1.data_buffer = [] ∨
    ((m.process_byte b).1.data_buffer = m.data_buffer ++ [b] ∧
      (m.process_byte b).2 = .ok none) := by
  by_cases h5 : (m.data_buffer ++ [b]).length < 5
  · right
    rw [process_byte_wait m b (Or.inl h5)]
    exact ⟨rfl, rfl⟩
  · by_cases hl : (m.data_buffer ++ [b]).length < (m.data_buffer ++ [b]).getD 2 0 + 5
    · right
      rw [process_byte_wait m b (Or.inr hl)]
      exact ⟨rfl, rfl⟩
    · left
      rw [process_byte_complete m b h5 hl]

theorem updateRegisters_outside (regs : Nat → Option Int) (start : Nat)
    (vs : List Int) (r : Nat) (h : r < start ∨ start + vs.length ≤ r) :
    updateRegisters regs start vs r = regs r := by
  induction vs generalizing regs start with
  | nil => rfl
  | cons v vs ih =>
    have hne : r ≠ start := by simp at h; omega
    rw [updateRegisters, ih _ _ (by simp at h ⊢; omega)]
    simp [insertReg, hne]

theorem updateRegisters_inside (regs : Nat → Option Int) (start : Nat)
    (vs : List Int) (i : Nat) (h : i < vs.length) :
    updateRegisters regs start vs (start + i) = some (vs.getD i 0) := by
  induction vs generalizing regs start i with
  | nil => simp at h
  | cons v vs ih =>
    cases i with
    | zero =>
      rw [updateRegisters, updateRegisters_outside _ _ _ _ (by simp)]
      simp [insertReg]
    | succ j =>
      rw [updateRegisters, show start + (j + 1) = (start + 1) + j from by omega,
        ih _ _ _ (by simpa using h)]
      simp

/-- C4: the reassembly buffer is cleared immediately after every parse
attempt (whenever `process_byte` returns anything but `Ok(None)` its
buffer is empty), the per-byte loop of the owning session forcibly
clears it whenever its length exceeds 256 bytes, and consequently after
every iteration of `process_incoming_data`'s read loop the buffer holds
at most 256 bytes. -/
theorem reassembly_buffer_invariant :
    (∀ (m : ModbusProtocol) (b : Nat),
      (m.process_byte b).2 ≠ .ok none → (m.process_byte b).1.data_buffer = []) ∧
    (∀ (s : WitSensor) (b : Nat) (r : Option SensorData),
      (s.process_one_byte b).2 = .ok r →
      256 < (s.modbus.process_byte b).1.data_buffer.length →
      (s.process_one_byte b).1.modbus.data_buffer = []) ∧
    (∀ (s : WitSensor) (b : Nat),
      (s.process_one_byte b).1.modbus.data_buffer.length ≤ 256) := by
  have hclear : ∀ (m : ModbusProtocol) (b : Nat),
      (m.process_byte b).2 ≠ .ok none → (m.process_byte b).1.data_buffer = [] := by
    intro m b h
    rcases process_byte_buffer_cases m b with hc | hc
    · exact hc
    · exact absurd hc.2 h
  refine ⟨hclear, ?_, ?_⟩
  · intro s b r _ hlen
    unfold WitSensor.process_one_byte
    dsimp only
    rcases hp : (s.modbus.process_byte b).2 with e | o
    · have := hclear s.modbus b (by rw [hp]; exact fun hc => nomatch hc)
      rw [this] at hlen
      exact absurd hlen (by simp)
    · rcases o with _ | ⟨start, values⟩
      · have : ({ s with modbus := (s.modbus.process_byte b).1 } :
            WitSensor).modbus.should_reset_buffer = true := by
          simp [ModbusProtocol.should_reset_buffer]
          omega
        simp only [this, if_true]
        rfl
      · have : (ModbusProtocol.should_reset_buffer
            (s.modbus.process_byte b).1) = true := by
          simp [ModbusProtocol.should_reset_buffer]
          omega
        simp only [this, if_true]
        rfl
  · intro s b
    unfold WitSensor.process_one_byte
    dsimp only
    rcases hp : (s.modbus.process_byte b).2 with e | o
    · have := hclear s.modbus b (by rw [hp]; exact fun hc => nomatch hc)
      simp only [this]
      simp
    · rcases o with _ | ⟨start, values⟩ <;>
      · dsimp only
        split
        · simp [ModbusProtocol.clear_buffer]
        · next hfalse =>
            simp only [ModbusProtocol.should_reset_buffer,
              decide_eq_true_eq] at hfalse
            dsimp only
            omega

end Wit

namespace Wit

set_option maxRecDepth 4000 in
/-- Witness for C4 at concrete inputs: a completed frame leaves the
buffer empty, and an over-long buffer is forcibly cleared by the
session loop. -/
theorem reassembly_buffer_invariant_witness :
    (ModbusProtocol.process_byte ⟨1, [1, 3, 0, 0], 0⟩ 0).1.data_buffer = [] ∧
    ((⟨⟨1, 0 :: 0 :: 255 :: List.replicate 255 0, 0⟩, fun _ => none, 9600⟩ :
        WitSensor).process_one_byte 0).1.modbus.data_buffer = [] := by
  constructor
  · exact reassembly_buffer_invariant.1 ⟨1, [1, 3, 0, 0], 0⟩ 0 (by decide)
  · exact reassembly_buffer_invariant.2.1
      ⟨⟨1, 0 :: 0 :: 255 :: List.replicate 255 0, 0⟩, fun _ => none, 9600⟩ 0 none
      (by decide) (by decide)

/-- C5: when a fed byte completes a frame that fails validation, the
session loop surfaces the error and the register bank is exactly as it
was before the frame; nothing is written for a frame that is still
incomplete; entries are written only for frames that parse
successfully, as `registers[start_register + i] = values[i]`, leaving
all other addresses untouched. -/
theorem register_bank_atomicity (s : WitSensor) (b : Nat) :
    (∀ e, (s.modbus.process_byte b).2 = .error e →
      (s.process_one_byte b).2 = .error e ∧
      (s.process_one_byte b).1.registers = s.registers) ∧
    ((s.modbus.process_byte b).2 = .ok none →
      (s.process_one_byte b).1.registers = s.registers) ∧
    (∀ start values, (s.modbus.process_byte b).2 = .ok (some (start, values)) →
      (∀ i, i < values.length →
        (s.process_one_byte b).1.registers (start + i) = some (values.getD i 0)) ∧
      (∀ r, r < start ∨ start + values.length ≤ r →
        (s.process_one_byte b).1.registers r = s.registers r)) := by
  refine ⟨?_, ?_, ?_⟩
  · intro e hp
    unfold WitSensor.process_one_byte
    dsimp only
    simp only [hp]
    exact ⟨trivial, trivial⟩
  · intro hp
    unfold WitSensor.process_one_byte
    dsimp only
    simp only [hp]
    split <;> rfl
  · intro start values hp
    unfold WitSensor.process_one_byte
    dsimp only
    simp only [hp]
    constructor
    · intro i hi
      split <;> exact updateRegisters_inside _ _ _ _ hi
    · intro r hr
      split <;> exact updateRegisters_outside _ _ _ _ hr

/-- Witness for C5 at a concrete input: a complete frame with a wrong
function code surfaces the invalid-function error and leaves the
(empty) register bank untouched. -/
theorem register_bank_atomicity_witness :
    ((⟨⟨1, [1, 9, 0, 0], 0⟩, fun _ => none, 9600⟩ :
        WitSensor).process_one_byte 0).2
      = .error (.invalidParameter "Invalid function code") ∧
    ((⟨⟨1, [1, 9, 0, 0], 0⟩, fun _ => none, 9600⟩ :
        WitSensor).process_one_byte 0).1.registers
      = (⟨⟨1, [1, 9, 0, 0], 0⟩, fun _ => none, 9600⟩ : WitSensor).registers :=
  (register_bank_atomicity ⟨⟨1, [1, 9, 0, 0], 0⟩, fun _ => none, 9600⟩ 0).1
    (.invalidParameter "Invalid function code") (by decide)

/-! ## Update-flag lemmas for the register decoder -/

theorem extractLoop_gyro (data : SensorData) (flags reg : Nat) (vs : List Int)
    (hne : vs ≠ []) (hlo : GX ≤ reg) (hhi : reg + vs.length = GZ + 1) :
    (extractLoop data flags reg vs).2 = flags ||| DataUpdateFlags.GYRO := by
  induction vs generalizing data flags reg with
  | nil => exact absurd rfl hne
  | cons v vs ih =>
    have hlo' : 0x37 ≤ reg := hlo
    have hhi' : reg + (vs.length + 1) = 0x3A := by
      have h := hhi
      simpa using h
    rw [extractLoop]
    rw [if_neg (show ¬(AX ≤ reg ∧ reg ≤ AZ) from by
      show ¬(0x34 ≤ reg ∧ reg ≤ 0x36); omega)]
    rw [if_pos (show GX ≤ reg ∧ reg ≤ GZ from by
      show 0x37 ≤ reg ∧ reg ≤ 0x39; omega)]
    rcases vs with _ | ⟨w, ws⟩
    · have hreg : reg = GZ := by show reg = 0x39; simp at hhi'; omega
      rw [if_pos hreg]
      rfl
    · have hlen : 1 ≤ (w :: ws).length := by simp
      have hreg : ¬ reg = GZ := by show ¬ reg = 0x39; simp at hhi'; omega
      rw [if_neg hreg]
      exact ih _ _ _ (by simp) (show 0x37 ≤ reg + 1 by omega)
        (show (reg + 1) + (w :: ws).length = 0x39 + 1 by simp at hhi' ⊢; omega)

/-- C8: for every decoded frame whose addresses all lie within the
gyroscope block GX..GZ and cover GZ, the resulting sample has only the
gyroscope-updated flag set (acceleration, angle and magnetometer flags
unset). -/
theorem gyro_only_update_flag (start : Nat) (values : List Int)
    (hne : values ≠ []) (hlo : GX ≤ start)
    (hhi : start + values.length = GZ + 1) :
    (WitSensor.extract_sensor_data start values).update_flags
      = DataUpdateFlags.GYRO := by
  have h := extractLoop_gyro SensorData.new 0 start values hne hlo hhi
  unfold WitSensor.extract_sensor_data
  simp only [h]
  decide

/-- Witness for C8: the full gyroscope triplet GX..GZ sets exactly the
GYRO flag. -/
theorem gyro_only_update_flag_witness :
    (WitSensor.extract_sensor_data GX [1, 2, 3]).update_flags
      = DataUpdateFlags.GYRO :=
  gyro_only_update_flag GX [1, 2, 3] (by decide) (by decide) (by decide)

/-- C10 (implicit): a decoded frame covering only the TEMP register
sets the temperature field but no update flag, so by flags alone the
sample is indistinguishable from the all-default `SensorData` that
`read_sensor_data` returns when no complete frame arrived. -/
theorem temp_update_invisible (v : Int) (s : WitSensor) :
    (WitSensor.extract_sensor_data TEMP [v]).update_flags = 0 ∧
    (WitSensor.extract_sensor_data TEMP [v]).temperature = (v : ℚ) / 100 ∧
    (s.read_sensor_data []).2 = .ok SensorData.new ∧
    (WitSensor.extract_sensor_data TEMP [v]).update_flags
      = SensorData.new.update_flags :=
  ⟨rfl, rfl, rfl, rfl⟩

end Wit

namespace Wit

/-- C6: for every buffer on which the streaming parse succeeds, the
standalone `parse_response` succeeds on the same bytes and returns the
same payload decoded as unsigned 16-bit values: elementwise the
unsigned value is the signed value reduced modulo 2^16, with the same
number of elements in the same order. -/
theorem signed_unsigned_agreement (m : ModbusProtocol)
    (hbytes : ∀ x ∈ m.data_buffer, x < 256)
    (start : Nat) (svals : List Int)
    (hok : m.parse_response = .ok (start, svals)) :
    parse_response m.data_buffer = .ok (svals.map fun v => (v % 65536).toNat) := by
  unfold ModbusProtocol.parse_response at hok
  unfold parse_response
  by_cases h1 : m.data_buffer.length < 5
  · rw [if_pos h1] at hok; exact absurd hok (by simp)
  rw [if_neg h1] at hok; rw [if_neg h1]
  by_cases h2 : m.data_buffer.getD 1 0 ≠ 0x03
  · rw [if_pos h2] at hok; exact absurd hok (by simp)
  rw [if_neg h2] at hok; rw [if_neg h2]
  by_cases h3 : m.data_buffer.length ≠ m.data_buffer.getD 2 0 + 5
  · rw [if_pos h3] at hok; exact absurd hok (by simp)
  rw [if_neg h3] at hok; rw [if_neg h3]
  by_cases h4 : m.data_buffer.getD (m.data_buffer.getD 2 0 + 5 - 2) 0
      + 256 * m.data_buffer.getD (m.data_buffer.getD 2 0 + 5 - 1) 0
      ≠ crc16 (m.data_buffer.take (m.data_buffer.getD 2 0 + 5 - 2))
  · rw [if_pos h4] at hok; exact absurd hok (by simp)
  rw [if_neg h4] at hok; rw [if_neg h4]
  have hs : svals = (List.range (m.data_buffer.getD 2 0 / 2)).map fun i =>
      i16ofBytes (m.data_buffer.getD (3 + i * 2) 0)
        (m.data_buffer.getD (3 + i * 2 + 1) 0) := by
    have h := hok
    simp only [Except.ok.injEq, Prod.mk.injEq] at h
    exact h.2.symm
  rw [hs, List.map_map]
  congr 1
  apply List.map_congr_left
  intro i _
  exact (toNat16_i16ofBytes _ _ (getD_lt_of_forall hbytes _)
    (getD_lt_of_forall hbytes _)).symm

set_option maxRecDepth 8000 in
/-- Witness for C6 at a concrete frame: one register with value 1. -/
theorem signed_unsigned_agreement_witness :
    parse_response (responseFrame 0x50 [1])
      = .ok ([(1 : Int)].map fun v => (v % 65536).toNat) :=
  signed_unsigned_agreement ⟨0x50, responseFrame 0x50 [1], 0x34⟩
    (by decide) 0x34 [1] (by decide)

end Wit

namespace Wit

/-! ## Transport model (src/Rust/src/serial.rs) and channel discovery
(src/Rust/src/sensor.rs, auto_scan; src/Rust/src/lib.rs)

The serial transport's I/O outcomes are modelled as an oracle
environment: whether a speed change is accepted, the result of
clearing buffered input, whether sending a read request succeeds, and
the outcome of one reassembly attempt over whatever bytes arrived. -/

/-- `SUPPORTED_BAUD_RATES` from lib.rs, in source order. -/
def SUPPORTED_BAUD_RATES : List Nat :=
  [9600, 19200, 38400, 57600, 115200, 2400, 4800, 230400, 460800, 921600]

/-- `DEFAULT_READ_COUNT` from lib.rs. -/
def DEFAULT_READ_COUNT : Nat := 12

/-- Oracle environment for `auto_scan`: the transport-level outcomes,
indexed by candidate baud rate (and retry number where relevant). -/
structure ScanEnv where
  set_baud_ok : Nat → Bool
  clear_input : Nat → Except WitError Unit
  read_ok : Nat → Nat → Nat → Nat → Bool
  incoming : Nat → Nat → Except WitError (Option SensorData)

/-- One trial of `auto_scan`'s retry loop: issue a read request for 3
registers starting at AX (skipped silently if the send fails), then
after the settle delay try one reassembly pass; an I/O error
propagates. -/
def scanTrial (env : ScanEnv) (baud retry : Nat) : Except WitError Bool :=
  if env.read_ok baud retry AX 3 then
    match env.incoming baud retry with
    | .error e => .error e
    | .ok (some _) => .ok true
    | .ok none => .ok false
  else .ok false

/-- One candidate of `auto_scan`'s outer loop: apply the speed (skip
the candidate if that fails), clear buffered input (an error
propagates), then up to 2 trials, stopping at the first hit. -/
def tryBaudRate (env : ScanEnv) (baud : Nat) : Except WitError Bool :=
  if env.set_baud_ok baud then
    match env.clear_input baud with
    | .error e => .error e
    | .ok _ =>
      match scanTrial env baud 0 with
      | .error e => .error e
      | .ok true => .ok true
      | .ok false => scanTrial env baud 1
  else .ok false

/-- `WitSensor::auto_scan` over a candidate list: return the first
candidate with a successful decode, `SensorNotFound` when the list is
exhausted. -/
def auto_scan_list (env : ScanEnv) : List Nat → Except WitError Nat
  | [] => .error .sensorNotFound
  | baud :: rest =>
    match tryBaudRate env baud with
    | .error e => .error e
    | .ok true => .ok baud
    | .ok false => auto_scan_list env rest

/-- `WitSensor::auto_scan`: iterate `SUPPORTED_BAUD_RATES` in order. -/
def auto_scan (env : ScanEnv) : Except WitError Nat :=
  auto_scan_list env SUPPORTED_BAUD_RATES

/-- A trial hits when its read request is sent and the reassembly
attempt decodes a frame. -/
def trialHit (env : ScanEnv) (baud retry : Nat) : Bool :=
  env.read_ok baud retry AX 3 &&
    (match env.incoming baud retry with
     | .ok (some _) => true
     | _ => false)

/-- A candidate succeeds when its speed change is accepted and one of
its 2 trials hits. -/
def baudHit (env : ScanEnv) (baud : Nat) : Bool :=
  env.set_baud_ok baud && (trialHit env baud 0 || trialHit env baud 1)

theorem scanTrial_eq (env : ScanEnv) (baud retry : Nat)
    (hinc : ∀ e, env.incoming baud retry ≠ .error e) :
    scanTrial env baud retry = .ok (trialHit env baud retry) := by
  unfold scanTrial trialHit
  rcases hi : env.incoming baud retry with e | o
  · exact absurd hi (hinc e)
  · rcases o with _ | d <;> by_cases hr : env.read_ok baud retry AX 3 <;>
      simp [hr, hi]

theorem tryBaudRate_eq (env : ScanEnv) (baud : Nat)
    (hclear : ∀ e, env.clear_input baud ≠ .error e)
    (hinc : ∀ retry e, env.incoming baud retry ≠ .error e) :
    tryBaudRate env baud = .ok (baudHit env baud) := by
  unfold tryBaudRate baudHit
  by_cases hs : env.set_baud_ok baud
  · rcases hc : env.clear_input baud with e | u
    · exact absurd hc (hclear e)
    · rw [scanTrial_eq env baud 0 (hinc 0), scanTrial_eq env baud 1 (hinc 1)]
      cases h0 : trialHit env baud 0 <;> cases h1 : trialHit env baud 1 <;>
        simp [hs, hc, h0, h1]
  · simp [hs]

theorem auto_scan_list_eq (env : ScanEnv)
    (hclear : ∀ b e, env.clear_input b ≠ .error e)
    (hinc : ∀ b retry e, env.incoming b retry ≠ .error e) :
    ∀ l : List Nat, auto_scan_list env l =
      (match l.find? (baudHit env) with
       | some b => .ok b
       | none => .error .sensorNotFound) := by
  intro l
  induction l with
  | nil => rfl
  | cons b rest ih =>
    rw [auto_scan_list, tryBaudRate_eq env b (hclear b) (fun r e => hinc b r e)]
    cases hb : baudHit env b
    · rw [List.find?_cons_of_neg _ (by simp [hb])]
      simpa using ih
    · rw [List.find?_cons_of_pos _ (by simp [hb])]

/-- C7: `auto_scan` walks `SUPPORTED_BAUD_RATES` in order and (absent
transport I/O errors) returns the first candidate whose speed change
succeeds and for which one of its up-to-2 trial reads of 3 registers
from AX yields a decoded frame; it returns `SensorNotFound` iff every
candidate is exhausted without a successful decode. -/
theorem auto_scan_first_success (env : ScanEnv)
    (hclear : ∀ b e, env.clear_input b ≠ .error e)
    (hinc : ∀ b retry e, env.incoming b retry ≠ .error e) :
    (auto_scan env =
      match SUPPORTED_BAUD_RATES.find? (baudHit env) with
      | some b => .ok b
      | none => .error .sensorNotFound) ∧
    (auto_scan env = .error .sensorNotFound ↔
      ∀ b ∈ SUPPORTED_BAUD_RATES, baudHit env b = false) := by
  have h := auto_scan_list_eq env hclear hinc SUPPORTED_BAUD_RATES
  refine ⟨h, ?_⟩
  rw [show auto_scan env = auto_scan_list env SUPPORTED_BAUD_RATES from rfl, h]
  rcases hf : SUPPORTED_BAUD_RATES.find? (baudHit env) with _ | b
  · refine iff_of_true rfl ?_
    intro b hb
    have := List.find?_eq_none.mp hf b hb
    simpa using this
  · refine iff_of_false (by simp) ?_
    intro hall
    have h1 := List.find?_some hf
    rw [hall b (List.mem_of_find?_eq_some hf)] at h1
    exact absurd h1 (by simp)

/-- Witness for C7: in an environment where every transport operation
succeeds and every trial decodes, the scan returns the first candidate,
9600. -/
theorem auto_scan_first_success_witness :
    auto_scan ⟨fun _ => true, fun _ => .ok (), fun _ _ _ _ => true,
      fun _ _ => .ok (some SensorData.new)⟩ = .ok 9600 := by
  have h := (auto_scan_first_success
      ⟨fun _ => true, fun _ => .ok (), fun _ _ _ _ => true,
        fun _ _ => .ok (some SensorData.new)⟩
      (fun b e hc => nomatch hc) (fun b r e hc => nomatch hc)).1
  rw [h]
  decide

end Wit

namespace Wit

/-! ## Serial transport state (src/Rust/src/serial.rs)

`WitSerial` holds a `serial2::SerialPort` handle and the current baud
rate; the handle is modelled by the device path it was opened on
(success path of `SerialPort::open`). -/

structure WitSerial where
  device_path : String
  current_baud : Nat
  deriving DecidableEq, Repr

/-- `WitSerial::open`: open the given device path at the given baud
rate (modelling the success path). -/
def WitSerial.open_port (device_path : String) (baud_rate : Nat) : WitSerial :=
  { device_path := device_path, current_baud := baud_rate }

/-- `WitSerial::set_baud_rate`: the source recreates the port, but on
the hard-coded device name `"/dev/ttyUSB0"` (serial.rs line 50, with
the comment "We'll need to store the device path"), not on the path
the port was opened with. -/
def WitSerial.set_baud_rate (s : WitSerial) (baud_rate : Nat) : WitSerial :=
  { device_path := "/dev/ttyUSB0", current_baud := baud_rate }

/-- `WitSerial::baud_rate`. -/
def WitSerial.baud_rate (s : WitSerial) : Nat :=
  s.current_baud

/-- C9 evaluated at a failing input: a transport opened on
`/dev/ttyUSB1` that then changes speed ends up operating on the
hard-coded `/dev/ttyUSB0`, not on the path it was opened with — the
claim that the original path is retained and reused fails on the code. -/
theorem set_baud_rate_ignores_opened_path :
    ((WitSerial.open_port "/dev/ttyUSB1" 9600).set_baud_rate 19200).device_path
      = "/dev/ttyUSB0" ∧
    ((WitSerial.open_port "/dev/ttyUSB1" 9600).set_baud_rate 19200).device_path
      ≠ "/dev/ttyUSB1" :=
  ⟨rfl, by decide⟩

end Wit
